import Mathlib

/-
Verification of the bina interpreter (lexer, parser, tree-walking evaluator)
against its natural-language specification.  The definitions below are a
shallow embedding of the Rust source: `Lexer.parse` embeds src/lexer.rs,
`Parser.parse_input` and friends embed src/parser.rs, and `Runtime.eval`
embeds src/runtime.rs.  Machine integers (i64) are modelled as `Int` with an
explicit two's-complement wrap (`wrap64`); fallible Rust code returning
`anyhow::Result` is modelled with `Except`, and a Rust `unwrap`/panic is
modelled with a dedicated error constructor so that panics stay
distinguishable from ordinary `Err` returns.  Possibly diverging evaluation
(While loops) takes a fuel argument; `none` means the fuel budget was
exhausted, and divergence is expressed as exhaustion at every fuel.
-/

namespace Bina

/-- Two's-complement wrap-around into the i64 range, modelling Rust release-mode
integer arithmetic (`i64` operations wrap modulo 2^64). -/
def wrap64 (n : Int) : Int := (n + 2 ^ 63) % 2 ^ 64 - 2 ^ 63

/-- The i64 range invariant. -/
def i64Range (n : Int) : Prop := -(2 ^ 63) ≤ n ∧ n < 2 ^ 63

namespace Lexer

/-- Token, from src/lexer.rs (`enum Token`).  Rust `True`/`False` are named
`tTrue`/`tFalse`, keywords carry a `Kw` suffix where the plain name is a Lean
keyword. -/
inductive Token where
  | tTrue
  | tFalse
  | assignment
  | openRoundParenthesis
  | closeRoundParenthesis
  | openGraphParenthesis
  | closeGraphParenthesis
  | openSquareParenthesis
  | closeSquareParenthesis
  | integer (n : Int)
  | identifier (s : String)
  | string (s : String)
  | whileKw
  | ifKw
  | elseKw
  | exclamationPoint
  | logicalOr
  | addition
  | multiplication
  | semicolon
  | equality
  | disequality
  | letKw
  | lessThan
  | inKw
  | print
deriving DecidableEq, Repr

/-- Numeric value of a decimal digit character. -/
def digitVal (c : Char) : Nat := c.toNat - 48

/-- The digit-run accumulator of the lexer: `number = number * 10 + digit`
performed in i64 arithmetic (wrapping, matching release-mode Rust). -/
def accumDigits : Int → List Char → Int
  | acc, [] => acc
  | acc, c :: cs => accumDigits (wrap64 (acc * 10 + (digitVal c : Int))) cs

/-- Keyword table of the identifier arm of the lexer. -/
def keywordOrIdent (s : String) : Token :=
  if s = "while" then .whileKw
  else if s = "if" then .ifKw
  else if s = "else" then .elseKw
  else if s = "true" then .tTrue
  else if s = "false" then .tFalse
  else if s = "let" then .letKw
  else if s = "in" then .inKw
  else if s = "print" then .print
  else .identifier s

/-- Replacement of the two-character sequence backslash-n by a newline,
modelling `string.replace("\\n", "\n")` (left-to-right, non-overlapping). -/
def replaceEscapes : List Char → List Char
  | '\\' :: 'n' :: rest => '\n' :: replaceEscapes rest
  | c :: rest => c :: replaceEscapes rest
  | [] => []

/-- Character class of identifier continuation characters
(`ch.is_alphanumeric() || ch == '_'`, restricted to ASCII). -/
def isIdentChar (c : Char) : Bool := c.isAlphanum || c = '_'

/-- Character class of identifier start characters (`'a'..='z' | 'A'..='Z' | '_'`). -/
def isIdentStart (c : Char) : Bool := c.isAlpha || c = '_'

/-- Whitespace characters skipped by the lexer. -/
def isWhitespaceChar (c : Char) : Bool :=
  c = ' ' || c = '\t' || c = '\n' || c = '\r'

theorem dropWhile_length_le (p : Char → Bool) (l : List Char) :
    (l.dropWhile p).length ≤ l.length := by
  induction l with
  | nil => simp [List.dropWhile]
  | cons c cs ih =>
    by_cases h : p c
    · simp [List.dropWhile, h]
      omega
    · simp [List.dropWhile, h]

/-- One step of the lexer's scan loop: given the peeked character `c` and the
remaining characters `cs` (after `c`), produce the token emitted by the
matching arm of the Rust `match` (or no token, for whitespace) and the
remaining input.  Each arm consumes at least the peeked character, so the
remainder is never longer than `cs`. -/
def lexStep (line : String) (c : Char) (cs : List Char) :
    Except String (Option Token × {l : List Char // l.length ≤ cs.length}) :=
  if c.isDigit then
    let ds := cs.takeWhile Char.isDigit
    let rest := cs.dropWhile Char.isDigit
    .ok (some (.integer (accumDigits 0 (c :: ds))), ⟨rest, dropWhile_length_le _ _⟩)
  else if c = '(' then .ok (some .openRoundParenthesis, ⟨cs, Nat.le_refl _⟩)
  else if c = ')' then .ok (some .closeRoundParenthesis, ⟨cs, Nat.le_refl _⟩)
  else if c = '=' then
    match cs with
    | '=' :: rest => .ok (some .equality, ⟨rest, by simp⟩)
    | _ => .error "Syntax error: expected = after ="
  else if c = '|' then
    match cs with
    | '|' :: rest => .ok (some .logicalOr, ⟨rest, by simp⟩)
    | _ => .error "Syntax error: expected | after |"
  else if c = '!' then
    match cs with
    | '=' :: rest => .ok (some .disequality, ⟨rest, by simp⟩)
    | _ => .error "Syntax error: unexpected char after !"
  else if c = '+' then .ok (some .addition, ⟨cs, Nat.le_refl _⟩)
  else if c = '*' then .ok (some .multiplication, ⟨cs, Nat.le_refl _⟩)
  else if c = ';' then .ok (some .semicolon, ⟨cs, Nat.le_refl _⟩)
  else if c = '<' then .ok (some .lessThan, ⟨cs, Nat.le_refl _⟩)
  else if c = '{' then .ok (some .openGraphParenthesis, ⟨cs, Nat.le_refl _⟩)
  else if c = '[' then .ok (some .openSquareParenthesis, ⟨cs, Nat.le_refl _⟩)
  else if c = ']' then .ok (some .closeSquareParenthesis, ⟨cs, Nat.le_refl _⟩)
  else if c = '}' then .ok (some .closeGraphParenthesis, ⟨cs, Nat.le_refl _⟩)
  else if c = ':' then
    match cs with
    | '=' :: rest => .ok (some .assignment, ⟨rest, by simp⟩)
    | _ => .error "Syntax error: expected = after :"
  else if isWhitespaceChar c then .ok (none, ⟨cs, Nat.le_refl _⟩)
  else if c = '"' then
    let content := cs.takeWhile (fun ch => ch ≠ '"')
    let rest1 := cs.dropWhile (fun ch => ch ≠ '"')
    .ok (some (.string (String.mk (replaceEscapes content))),
      ⟨rest1.tail, by
        have h1 := dropWhile_length_le (fun ch => decide (ch ≠ '"')) cs
        have h2 : rest1.tail.length = rest1.length - 1 := List.length_tail _
        simp only [rest1] at h2 ⊢
        omega⟩)
  else if isIdentStart c then
    let more := cs.takeWhile isIdentChar
    let rest := cs.dropWhile isIdentChar
    .ok (some (keywordOrIdent (String.mk (c :: more))), ⟨rest, dropWhile_length_le _ _⟩)
  else .error "Error, unrecognized char"

/-- The lexer's scan loop over the character list. -/
def lexList (line : String) : (l : List Char) → Except String (List Token)
  | [] => .ok []
  | c :: cs =>
    match lexStep line c cs with
    | .error e => .error e
    | .ok (t?, ⟨rest, _⟩) =>
      match lexList line rest with
      | .error e => .error e
      | .ok ts =>
        .ok (match t? with
          | some t => t :: ts
          | none => ts)
termination_by l => l.length
decreasing_by
  rename_i h
  simp only [List.length_cons]
  omega

/-- Entry point of the lexer, `pub fn parse(line: &str) -> Result<Vec<Token>>`
in src/lexer.rs. -/
def parse (line : String) : Except String (List Token) :=
  lexList line line.data

end Lexer

namespace Parser

open Lexer (Token)

mutual
/-- Term, from src/parser.rs (`enum Term`). -/
inductive Term where
  | integer (n : Int)
  | str (s : String)
  | boolean (b : Bool)
  | var (s : String)
  | varIndexed (s : String) (index : Expr)
/-- Expr, from src/parser.rs (`enum Expr`): exactly one binary relation
between two Terms, or a single wrapped Term. -/
inductive Expr where
  | add (l r : Term)
  | multiply (l r : Term)
  | logicalOr (l r : Term)
  | equality (l r : Term)
  | disEquality (l r : Term)
  | lessThan (l r : Term)
  | containedIn (l r : Term)
  | termWrapper (t : Term)
end

/-- Statement, from src/parser.rs (`enum Statement`). -/
inductive Statement where
  | sIf (predicate : Expr) (body : Statement)
  | sWhile (predicate : Expr) (body : Statement)
  | block (stmts : List Statement)
  | assignment (name : String) (e : Expr) (isLet : Bool)
  | print (e : Expr)

/-- Parser outcome: an ordinary `anyhow` error (`bail!`), or a panic caused by
`input.next().unwrap()` on an exhausted iterator (src/parser.rs line 118,
consuming the closing-bracket position of an indexed term). -/
inductive PErr where
  | err (msg : String)
  | unwrapPanic
deriving DecidableEq, Repr

mutual
/-- parse_term from src/parser.rs.  The remaining token list is returned
together with a proof that at least one token was consumed (used for
termination).  Note the indexed-variable arm: the token at the
closing-bracket position is consumed unconditionally whatever it is, and if
input is exhausted there the Rust code panics (`unwrap` of `None`). -/
def parseTermAux : (ts : List Token) →
    Except PErr (Term × {l : List Token // l.length < ts.length})
  | .integer i :: rest => .ok (.integer i, ⟨rest, by simp⟩)
  | .string s :: rest => .ok (.str s, ⟨rest, by simp⟩)
  | .tTrue :: rest => .ok (.boolean true, ⟨rest, by simp⟩)
  | .tFalse :: rest => .ok (.boolean false, ⟨rest, by simp⟩)
  | .identifier s :: .openSquareParenthesis :: rest2 =>
    (match parseExprAux rest2 with
    | .error e => .error e
    | .ok (index, ⟨rest3, h3⟩) =>
      match rest3, h3 with
      | _ :: rest4, h3 => .ok (.varIndexed s index, ⟨rest4, by
          simp only [List.length_cons] at h3 ⊢
          omega⟩)
      | [], _ => .error .unwrapPanic)
  | .identifier s :: rest => .ok (.var s, ⟨rest, by simp⟩)
  | _ :: _ => .error (.err "parse_term: Unexpected token")
  | [] => .error (.err "parse_term: Unexpected end of input")
termination_by ts => (ts.length, 0)
decreasing_by
all_goals simp_wf
all_goals try simp only [List.length_cons] at *
all_goals first
  | exact Prod.Lex.right _ (by omega)
  | exact Prod.Lex.left _ _ (by omega)

/-- parse_expr from src/parser.rs: parse one Term; if the next token is one of
the six operator tokens, consume it and parse a second Term; on any other
following token leave the bare Term wrapper; at end of input the wildcard arm
bails. -/
def parseExprAux (ts : List Token) :
    Except PErr (Expr × {l : List Token // l.length < ts.length}) :=
    match parseTermAux ts with
    | .error e => .error e
    | .ok (left, ⟨rest, hr⟩) =>
      match rest, hr with
      | .multiplication :: rest', hr =>
        (match parseTermAux rest' with
        | .error e => .error e
        | .ok (right, ⟨rest2, h2⟩) => .ok (.multiply left right, ⟨rest2, by
            simp only [List.length_cons] at hr
            omega⟩))
      | .addition :: rest', hr =>
        (match parseTermAux rest' with
        | .error e => .error e
        | .ok (right, ⟨rest2, h2⟩) => .ok (.add left right, ⟨rest2, by
            simp only [List.length_cons] at hr
            omega⟩))
      | .disequality :: rest', hr =>
        (match parseTermAux rest' with
        | .error e => .error e
        | .ok (right, ⟨rest2, h2⟩) => .ok (.disEquality left right, ⟨rest2, by
            simp only [List.length_cons] at hr
            omega⟩))
      | .equality :: rest', hr =>
        (match parseTermAux rest' with
        | .error e => .error e
        | .ok (right, ⟨rest2, h2⟩) => .ok (.equality left right, ⟨rest2, by
            simp only [List.length_cons] at hr
            omega⟩))
      | .lessThan :: rest', hr =>
        (match parseTermAux rest' with
        | .error e => .error e
        | .ok (right, ⟨rest2, h2⟩) => .ok (.lessThan left right, ⟨rest2, by
            simp only [List.length_cons] at hr
            omega⟩))
      | .inKw :: rest', hr =>
        (match parseTermAux rest' with
        | .error e => .error e
        | .ok (right, ⟨rest2, h2⟩) => .ok (.containedIn left right, ⟨rest2, by
            simp only [List.length_cons] at hr
            omega⟩))
      | t :: rest', hr => .ok (.termWrapper left, ⟨t :: rest', hr⟩)
      | [], _ => .error (.err "parse_expr: Unexpected token None")
termination_by (ts.length, 1)
decreasing_by
all_goals simp_wf
all_goals try simp only [List.length_cons] at *
all_goals first
  | exact Prod.Lex.right _ (by omega)
  | exact Prod.Lex.left _ _ (by omega)
end

/-- parse_term from src/parser.rs, with the length bookkeeping dropped. -/
def parse_term (ts : List Token) : Except PErr (Term × List Token) :=
  match parseTermAux ts with
  | .error e => .error e
  | .ok (t, rest) => .ok (t, rest.1)

/-- parse_expr from src/parser.rs, with the length bookkeeping dropped. -/
def parse_expr (ts : List Token) : Except PErr (Expr × List Token) :=
  match parseExprAux ts with
  | .error e => .error e
  | .ok (e, rest) => .ok (e, rest.1)

mutual
/-- parse_statement from src/parser.rs: dispatch on the leading token. -/
def parseStatementAux (ts : List Token) :
    Except PErr (Statement × {l : List Token // l.length < ts.length})
  :=
  match ts with
  | .whileKw :: rest =>
    (match parseExprAux rest with
    | .error e => .error e
    | .ok (condition, ⟨rest2, h2⟩) =>
      match parseBlockAux rest2 with
      | .error e => .error e
      | .ok (body, ⟨rest3, h3⟩) => .ok (.sWhile condition body, ⟨rest3, by
          simp only [List.length_cons]
          omega⟩))
  | .ifKw :: rest =>
    (match parseExprAux rest with
    | .error e => .error e
    | .ok (condition, ⟨rest2, h2⟩) =>
      match parseBlockAux rest2 with
      | .error e => .error e
      | .ok (body, ⟨rest3, h3⟩) => .ok (.sIf condition body, ⟨rest3, by
          simp only [List.length_cons]
          omega⟩))
  | .identifier s :: rest =>
    (match rest with
    | .assignment :: rest2 =>
      (match parseExprAux rest2 with
      | .error e => .error e
      | .ok (e, ⟨rest3, h3⟩) =>
        match rest3, h3 with
        | .semicolon :: rest4, h3 => .ok (.assignment s e false, ⟨rest4, by
            simp only [List.length_cons] at h3 ⊢
            omega⟩)
        | t, _ => .error (.err "Expected semicolon"))
    | _ => .error (.err "Expected assignment token"))
  | .letKw :: rest =>
    (match rest with
    | .identifier s :: .assignment :: rest2 =>
      (match parseExprAux rest2 with
      | .error e => .error e
      | .ok (e, ⟨rest3, h3⟩) =>
        match rest3, h3 with
        | .semicolon :: rest4, h3 => .ok (.assignment s e true, ⟨rest4, by
            simp only [List.length_cons] at h3 ⊢
            omega⟩)
        | t, _ => .error (.err "Expected semicolon"))
    | .identifier s :: _ => .error (.err "Expected assignment token")
    | _ => .error (.err "Expected identifier"))
  | .print :: rest =>
    (match parseExprAux rest with
    | .error e => .error e
    | .ok (e, ⟨rest2, h2⟩) =>
      match rest2, h2 with
      | .semicolon :: rest3, h2 => .ok (.print e, ⟨rest3, by
          simp only [List.length_cons] at h2 ⊢
          omega⟩)
      | t, _ => .error (.err "Expected semicolon"))
  | _ :: _ => .error (.err "parse_statement: Unexpected token")
  | [] => .error (.err "parse_statement: Unexpected token None")
termination_by (ts.length, 0)
decreasing_by
all_goals simp_wf
all_goals try simp only [List.length_cons] at *
all_goals first
  | exact Prod.Lex.right _ (by omega)
  | exact Prod.Lex.left _ _ (by omega)

/-- parse_block from src/parser.rs: expect an opening brace (consuming the
token even when it is not one), then statements until a closing brace, then
consume the closing brace. -/
def parseBlockAux (ts : List Token) :
    Except PErr (Statement × {l : List Token // l.length < ts.length})
  :=
  match ts with
  | .openGraphParenthesis :: rest =>
    (match parseBlockItemsAux rest with
    | .error e => .error e
    | .ok (stmts, ⟨rest2, h2⟩) => .ok (.block stmts, ⟨rest2, by
        simp only [List.length_cons]
        omega⟩))
  | _ => .error (.err "Expected open graph parenthesis")
termination_by (ts.length, 1)
decreasing_by
all_goals simp_wf
all_goals try simp only [List.length_cons] at *
all_goals first
  | exact Prod.Lex.right _ (by omega)
  | exact Prod.Lex.left _ _ (by omega)

/-- Loop body of parse_block: parse statements until the next token is a
closing brace, then consume it (`input.next()` after the loop).  On an empty
input the loop calls parse_statement, which fails on `None`, matching the
Rust behavior for an unterminated block. -/
def parseBlockItemsAux (ts : List Token) :
    Except PErr (List Statement × {l : List Token // l.length < ts.length})
  :=
  match ts with
  | .closeGraphParenthesis :: rest => .ok ([], ⟨rest, by simp⟩)
  | ts' =>
    (match parseStatementAux ts' with
    | .error e => .error e
    | .ok (s, ⟨rest, h2⟩) =>
      match parseBlockItemsAux rest with
      | .error e => .error e
      | .ok (ss, ⟨rest2, h3⟩) => .ok (s :: ss, ⟨rest2, by omega⟩))
termination_by (ts.length, 2)
decreasing_by
all_goals simp_wf
all_goals try simp only [List.length_cons] at *
all_goals first
  | exact Prod.Lex.right _ (by omega)
  | exact Prod.Lex.left _ _ (by omega)
end

/-- parse_statement from src/parser.rs, with the length bookkeeping dropped. -/
def parse_statement (ts : List Token) : Except PErr (Statement × List Token) :=
  match parseStatementAux ts with
  | .error e => .error e
  | .ok (s, rest) => .ok (s, rest.1)

/-- parse_input from src/parser.rs: parse statements until the token stream is
exhausted. -/
def parse_input : (ts : List Token) → Except PErr (List Statement)
  | [] => .ok []
  | t :: ts =>
    match parseStatementAux (t :: ts) with
    | .error e => .error e
    | .ok (s, ⟨rest, h2⟩) =>
      match parse_input rest with
      | .error e => .error e
      | .ok ss => .ok (s :: ss)
termination_by ts => ts.length
decreasing_by
simp only [List.length_cons] at h2 ⊢
omega

end Parser

namespace Runtime

open Parser (Term Expr Statement)

/-- Value, from src/runtime.rs (`enum Value`). -/
inductive Value where
  | number (n : Int)
  | boolean (b : Bool)
  | string (s : String)
deriving DecidableEq, Repr

/-- Evaluator outcome: an ordinary `anyhow` error (`bail!`/`context`), or the
panic raised by `l.parse::<i64>().unwrap()` in the Add/Multiply string
coercion, which aborts the process rather than returning `Err`.  The panic
constructor carries the offending string. -/
inductive EvalErr where
  | err (msg : String)
  | numParsePanic (s : String)
deriving DecidableEq, Repr

/-- Environment, from src/runtime.rs (`type Environment = HashMap<String,
Value>`), modelled as an association list with first-match lookup and
replace-or-append insertion; the claims under verification never observe
iteration order, the only behavior in which this model differs from a hash
map. -/
def Environment := List (String × Value)

/-- HashMap::get. -/
def envGet : Environment → String → Option Value
  | [], _ => none
  | (k', v') :: rest, k => if k' = k then some v' else envGet rest k

/-- HashMap::insert (overwrites an existing binding). -/
def envInsert : Environment → String → Value → Environment
  | [], k, v => [(k, v)]
  | (k', v') :: rest, k, v =>
    if k' = k then (k, v) :: rest else (k', v') :: envInsert rest k v

/-- Numeric value of a digit list (no wrap-around; Rust's checked parse
rejects overflow before any wrapping could occur). -/
def digitsNat : List Char → Nat :=
  List.foldl (fun acc c => 10 * acc + Lexer.digitVal c) 0

/-- Rust `str::parse::<i64>()`: an optional sign followed by one or more
decimal digits, rejecting anything else and rejecting values outside the i64
range.  Returns `none` where Rust returns `Err(ParseIntError)`. -/
def parseI64 (s : String) : Option Int :=
  let signDigits : Int × List Char :=
    match s.data with
    | '+' :: r => (1, r)
    | '-' :: r => (-1, r)
    | r => (1, r)
  let sign := signDigits.1
  let ds := signDigits.2
  if ds.isEmpty then none
  else if ds.all Char.isDigit then
    let v : Int := sign * (digitsNat ds : Int)
    if -(2 ^ 63) ≤ v ∧ v ≤ 2 ^ 63 - 1 then some v else none
  else none

/-- Rust `n as usize` on a 64-bit target: two's-complement cast of i64. -/
def usizeOfI64 (n : Int) : Nat := (n % 2 ^ 64).toNat

/-- Rust `str::contains(&str)`: contiguous-substring test. -/
def isSubstringOf (needle : List Char) (hay : List Char) : Bool :=
  match hay with
  | [] => needle.isEmpty
  | _ :: t => needle.isPrefixOf hay || isSubstringOf needle t

mutual
/-- eval_term from src/runtime.rs.  In the indexed arm the base variable is
looked up first, then the index expression is evaluated, then both are
required to be a Number and a String; `chars().nth` out of range is the
"index out of bounds" error. -/
def eval_term (env : Environment) : Term → Except EvalErr Value
  | .str s => .ok (.string s)
  | .integer n => .ok (.number n)
  | .boolean b => .ok (.boolean b)
  | .var s =>
    match envGet env s with
    | some v => .ok v
    | none => .error (.err "variable not found")
  | .varIndexed s e =>
    match envGet env s with
    | none => .error (.err "variable not found")
    | some base =>
      match eval_expr env e with
      | .error er => .error er
      | .ok index =>
        match index, base with
        | .number n, .string str =>
          (match str.data[usizeOfI64 n]? with
          | some ch => .ok (.string (String.mk [ch]))
          | none => .error (.err "variableIndexed: index out of bounds"))
        | _, _ => .error (.err "base is not a string or index is not a number")

/-- eval_expr from src/runtime.rs: the binary-operator semantics table.  The
string operand of Add/Multiply is parsed as an i64 with `unwrap`, i.e. a
panic (`numParsePanic`) when non-numeric. -/
def eval_expr (env : Environment) : Expr → Except EvalErr Value
  | .add l r =>
    (match eval_term env l, eval_term env r with
    | .error e, _ => .error e
    | .ok _, .error e => .error e
    | .ok lv, .ok rv =>
      match lv, rv with
      | .number l', .number r' => .ok (.number (wrap64 (l' + r')))
      | .string l', .number r' =>
        (match parseI64 l' with
        | some n => .ok (.number (wrap64 (n + r')))
        | none => .error (.numParsePanic l'))
      | .number l', .string r' =>
        (match parseI64 r' with
        | some n => .ok (.number (wrap64 (l' + n)))
        | none => .error (.numParsePanic r'))
      | _, _ => .error (.err "Error: Addition of non-numbers"))
  | .multiply l r =>
    (match eval_term env l, eval_term env r with
    | .error e, _ => .error e
    | .ok _, .error e => .error e
    | .ok lv, .ok rv =>
      match lv, rv with
      | .number l', .number r' => .ok (.number (wrap64 (l' * r')))
      | .string l', .number r' =>
        (match parseI64 l' with
        | some n => .ok (.number (wrap64 (n * r')))
        | none => .error (.numParsePanic l'))
      | .number l', .string r' =>
        (match parseI64 r' with
        | some n => .ok (.number (wrap64 (l' * n)))
        | none => .error (.numParsePanic r'))
      | _, _ => .error (.err "Error: Multiplication of non-numbers"))
  | .equality l r =>
    (match eval_term env l, eval_term env r with
    | .error e, _ => .error e
    | .ok _, .error e => .error e
    | .ok lv, .ok rv =>
      match lv, rv with
      | .number l', .number r' => .ok (.boolean (l' = r'))
      | .boolean l', .boolean r' => .ok (.boolean (l' = r'))
      | _, _ => .error (.err "Error: DisEquality of non-numbers"))
  | .lessThan l r =>
    (match eval_term env l, eval_term env r with
    | .error e, _ => .error e
    | .ok _, .error e => .error e
    | .ok lv, .ok rv =>
      match lv, rv with
      | .number l', .number r' => .ok (.boolean (l' < r'))
      | _, _ => .error (.err "Error: DisEquality of non-numbers"))
  | .disEquality l r =>
    (match eval_term env l, eval_term env r with
    | .error e, _ => .error e
    | .ok _, .error e => .error e
    | .ok lv, .ok rv =>
      match lv, rv with
      | .number l', .number r' => .ok (.boolean (¬ l' = r'))
      | .boolean l', .boolean r' => .ok (.boolean (¬ l' = r'))
      | .string l', .string r' => .ok (.boolean (¬ l' = r'))
      | _, _ => .error (.err "Error: DisEquality not implemented"))
  | .containedIn l r =>
    (match eval_term env l, eval_term env r with
    | .error e, _ => .error e
    | .ok _, .error e => .error e
    | .ok lv, .ok rv =>
      match lv, rv with
      | .string l', .string r' => .ok (.boolean (isSubstringOf l'.data r'.data))
      | _, _ => .error (.err "Error: ContainedIn of non-strings"))
  | .logicalOr _ _ => .error (.err "eval_expr: unimplemented")
  | .termWrapper t => eval_term env t
end

/-- evaluate_assignment from src/runtime.rs: evaluate the expression, insert
the binding; the `is_let` flag is accepted and ignored. -/
def evaluate_assignment (env : Environment) (variable_name : String)
    (expr : Expr) (is_let : Bool) : Except EvalErr Environment :=
  match eval_expr env expr with
  | .error e => .error e
  | .ok value => .ok (envInsert env variable_name value)

/-- Textual form a Value takes on the Print path (`println!` formatting):
number as decimal, boolean as true/false, string as its contents. -/
def valueToString : Value → String
  | .number n => toString n
  | .boolean b => if b then "true" else "false"
  | .string s => s

/-- eval_print from src/runtime.rs; the printed line is returned as an
explicit side effect instead of being written to standard output. -/
def eval_print (env : Environment) (expr : Expr) :
    Except EvalErr (Environment × List String) :=
  match eval_expr env expr with
  | .error e => .error e
  | .ok v => .ok (env, [valueToString v])

mutual
/-- eval from src/runtime.rs, the statement evaluator.  The extra `fuel`
argument bounds the number of While-loop iterations: `none` means the bound
was exhausted (the Rust loop would still be running), and the claim about
divergence quantifies over every fuel.  All other statement forms ignore the
fuel.  Printed lines are collected in order as an explicit side effect. -/
def eval (fuel : Nat) (env : Environment) :
    Statement → Option (Except EvalErr (Environment × List String))
  | .assignment variable_name expr is_let =>
    (match evaluate_assignment env variable_name expr is_let with
    | .error e => some (.error e)
    | .ok env' => some (.ok (env', [])))
  | .print expr => some (eval_print env expr)
  | .sIf expr body =>
    (match eval_expr env expr with
    | .error e => some (.error e)
    | .ok v =>
      if v = .boolean true then eval fuel env body else some (.ok (env, [])))
  | .sWhile expr body =>
    (match eval_expr env expr with
    | .error e => some (.error e)
    | .ok v =>
      if v = .boolean true then
        match fuel with
        | 0 => none
        | f + 1 =>
          match eval (f + 1) env body with
          | none => none
          | some (.error e) => some (.error e)
          | some (.ok (env', out1)) =>
            match eval f env' (.sWhile expr body) with
            | none => none
            | some (.error e) => some (.error e)
            | some (.ok (env'', out2)) => some (.ok (env'', out1 ++ out2))
      else some (.ok (env, [])))
  | .block stmts => evalBlock fuel env stmts
termination_by s => (fuel, sizeOf s)
decreasing_by
all_goals simp_wf
all_goals first
  | exact Prod.Lex.right _ (by omega)
  | exact Prod.Lex.left _ _ (by omega)

/-- The Block arm of eval: execute the statements in order, threading the
environment and accumulating printed lines. -/
def evalBlock (fuel : Nat) (env : Environment) :
    List Statement → Option (Except EvalErr (Environment × List String))
  | [] => some (.ok (env, []))
  | s :: rest =>
    match eval fuel env s with
    | none => none
    | some (.error e) => some (.error e)
    | some (.ok (env', out1)) =>
      match evalBlock fuel env' rest with
      | none => none
      | some (.error e) => some (.error e)
      | some (.ok (env'', out2)) => some (.ok (env'', out1 ++ out2))
termination_by ss => (fuel, sizeOf ss)
decreasing_by
all_goals simp_wf
all_goals first
  | exact Prod.Lex.right _ (by omega)
  | exact Prod.Lex.left _ _ (by omega)
end

end Runtime

/-- The operator-token table of parse_expr: which tokens are consumed as a
binary operator, and which Expr constructor each one builds
(src/parser.rs, parse_expr match arms). -/
def binExprOf : Lexer.Token → Option (Parser.Term → Parser.Term → Parser.Expr)
  | .multiplication => some .multiply
  | .addition => some .add
  | .disequality => some .disEquality
  | .equality => some .equality
  | .lessThan => some .lessThan
  | .inKw => some .containedIn
  | _ => none

mutual
/-- Statements containing no While loop (the only possibly-diverging form). -/
def whileFree : Parser.Statement → Bool
  | .sIf _ body => whileFree body
  | .sWhile _ _ => false
  | .block stmts => whileFreeList stmts
  | .assignment _ _ _ => true
  | .print _ => true
def whileFreeList : List Parser.Statement → Bool
  | [] => true
  | s :: rest => whileFree s && whileFreeList rest
end

/-- Divergence of statement evaluation: the fuel budget is exhausted at every
fuel, i.e. the Rust loop never finishes. -/
def evalDiverges (env : Runtime.Environment) (s : Parser.Statement) : Prop :=
  ∀ fuel, Runtime.eval fuel env s = none

/-- Modelled from the spec: the "decimal re-serialization" of an integer
token's value (§8: "lexing then re-serializing yields the original
numeral").  The source has no token serializer, so the standard base-10
numeral is defined here: digits of n most significant first. -/
def natToDigits (n : Nat) : List Char :=
  if n < 10 then [Char.ofNat (48 + n)]
  else natToDigits (n / 10) ++ [Char.ofNat (48 + n % 10)]
decreasing_by exact Nat.div_lt_self (by omega) (by omega)

/-- Modelled from the spec: decimal re-serialization of an i64 value as a
string (minus sign for negatives, canonical base-10 digits). -/
def intToDecimal (n : Int) : String :=
  if n < 0 then String.mk ('-' :: natToDigits (-n).toNat)
  else String.mk (natToDigits n.toNat)

section Claims

open Lexer (Token)
open Parser
open Runtime

/-- C1: the claim says a well-formed Term followed by end of input leaves
expression parsing successful with a bare TermWrapper.  The code disagrees:
parse_expr's wildcard arm fires on `None` and bails, so a term at end of
input is a parse error.  This theorem evaluates the model at the failing
input, including the token sequence of the repository's own test
`test_assignment`, which expects `parse_input` to succeed on
`[Identifier "x", Assignment, Integer 10]` and therefore contradicts the
code. -/
theorem parse_expr_errors_at_end_of_input :
    Parser.parse_expr [Token.integer 10]
      = .error (.err "parse_expr: Unexpected token None")
    ∧ Parser.parse_input [Token.identifier "x", Token.assignment, Token.integer 10]
      = .error (.err "parse_expr: Unexpected token None") := by
  constructor
  · simp [parse_expr, parseExprAux, parseTermAux]
  · simp [parse_input, parseStatementAux, parseExprAux, parseTermAux]

/-- C10: a token sequence that ends immediately after the index expression of
an indexed term makes the parser hit `input.next().unwrap()` on `None` at the
closing-bracket position: `parse` panics (modelled by the distinguished
`PErr.unwrapPanic`, not a `PErr.err` parse error), so the parser is not a
total function into `Result`.  The witness sequence is `print y[1+2` —
the shape Identifier `[` Integer `+` Integer at end of input, reached
through the Print statement. -/
theorem indexed_term_eof_panics :
    Parser.parse_input [Token.print, Token.identifier "y", Token.openSquareParenthesis,
      Token.integer 1, Token.addition, Token.integer 2] = .error .unwrapPanic := by
  simp [parse_input, parseStatementAux, parseExprAux, parseTermAux]

/-- C8: the declaring (`let`) and non-declaring Assignment statements are
evaluated identically — `evaluate_assignment` ignores its `is_let` flag, so
the resulting environment, error behavior and side effects coincide for
every name, expression, environment and fuel. -/
theorem let_flag_inert (fuel : Nat) (env : Environment) (x : String) (e : Expr) :
    Runtime.eval fuel env (.assignment x e true)
      = Runtime.eval fuel env (.assignment x e false) := by
  simp [Runtime.eval, Runtime.evaluate_assignment]

/-- C7: expression parsing consumes exactly one binary operator: on
term-operator-term-operator-term input it builds the binary Expr of the
first operator over the first two terms and leaves the second operator and
the third term unconsumed. -/
theorem expr_consumes_single_operator (a b c : Int) (op1 op2 : Token)
    (f g : Term → Term → Expr) (rest : List Token)
    (h1 : binExprOf op1 = some f) (h2 : binExprOf op2 = some g) :
    Parser.parse_expr (Token.integer a :: op1 :: Token.integer b ::
        op2 :: Token.integer c :: rest)
      = .ok (f (Term.integer a) (Term.integer b),
          op2 :: Token.integer c :: rest) := by
  cases op1 <;> simp only [binExprOf, Option.some.injEq, reduceCtorEq] at h1 <;>
    subst h1 <;>
    simp [parse_expr, parseExprAux, parseTermAux]

/-- Witness for C7 at `1 + 2 + 3`: the result is `Add(1, 2)` with `+ 3` left
over. -/
theorem expr_consumes_single_operator_witness :
    Parser.parse_expr [Token.integer 1, Token.addition, Token.integer 2,
        Token.addition, Token.integer 3]
      = .ok (Expr.add (Term.integer 1) (Term.integer 2),
          [Token.addition, Token.integer 3]) :=
  expr_consumes_single_operator 1 2 3 .addition .addition .add .add [] rfl rfl

/-- C3: Add with one String and one Number operand parses the string as an
i64 and adds (in either operand order), and a non-numeric string operand
makes evaluation fail with the numeric-parse panic instead of silently
producing the number; concretely `print "5" + 3;` prints `8` and
`print "abc" + 3;` fails with the numeric-parse error on `"abc"`. -/
theorem add_string_number_coercion (env : Environment) (s s2 : String) (n r : Int)
    (hs : parseI64 s = some n) (hs2 : parseI64 s2 = none) :
    eval_expr env (.add (.str s) (.integer r)) = .ok (.number (wrap64 (n + r)))
    ∧ eval_expr env (.add (.integer r) (.str s)) = .ok (.number (wrap64 (r + n)))
    ∧ eval_expr env (.add (.str s2) (.integer r)) = .error (.numParsePanic s2)
    ∧ eval_expr env (.add (.integer r) (.str s2)) = .error (.numParsePanic s2)
    ∧ Runtime.eval 1 [] (.print (.add (.str "5") (.integer 3)))
        = some (.ok ([], ["8"]))
    ∧ Runtime.eval 1 [] (.print (.add (.str "abc") (.integer 3)))
        = some (.error (.numParsePanic "abc")) := by
  refine ⟨?_, ?_, ?_, ?_, ?_, ?_⟩
  · simp [eval_expr, eval_term, hs]
  · simp [eval_expr, eval_term, hs]
  · simp [eval_expr, eval_term, hs2]
  · simp [eval_expr, eval_term, hs2]
  · simp [Runtime.eval, eval_print, eval_expr, eval_term, parseI64, digitsNat,
      Lexer.digitVal, wrap64, valueToString]
    decide
  · simp [Runtime.eval, eval_print, eval_expr, eval_term, parseI64, digitsNat,
      Lexer.digitVal]

/-- Witness for C3 at `s = "5"`, `n = 5`, `s2 = "abc"`, `r = 3`. -/
theorem add_string_number_coercion_witness :
    eval_expr [] (.add (.str "5") (.integer 3)) = .ok (.number (wrap64 (5 + 3)))
    ∧ eval_expr [] (.add (.integer 3) (.str "5")) = .ok (.number (wrap64 (3 + 5)))
    ∧ eval_expr [] (.add (.str "abc") (.integer 3)) = .error (.numParsePanic "abc")
    ∧ eval_expr [] (.add (.integer 3) (.str "abc")) = .error (.numParsePanic "abc")
    ∧ Runtime.eval 1 [] (.print (.add (.str "5") (.integer 3)))
        = some (.ok ([], ["8"]))
    ∧ Runtime.eval 1 [] (.print (.add (.str "abc") (.integer 3)))
        = some (.error (.numParsePanic "abc")) :=
  add_string_number_coercion [] "5" "abc" 5 3 (by decide) (by decide)

/-- C4 counterexample: the claim says an unterminated string literal fails
lexing; in fact the lexer's string loop treats end of input like a closing
quote, so `"abc` (a quote never closed) lexes successfully to a String
token. -/
theorem unterminated_string_lexes_ok :
    Lexer.parse "\"abc" = .ok [.string "abc"] := by
  simp [Lexer.parse, Lexer.lexList, Lexer.lexStep, Lexer.replaceEscapes,
    Lexer.isWhitespaceChar]

/-- C4 amended: on any source consisting of an opening quote never followed
by a closing quote, the lexer does not fail: it returns exactly one String
token holding the remaining characters (with backslash-n escapes
replaced). -/
theorem unterminated_string_returns_token (s : List Char) (h : '"' ∉ s) :
    Lexer.parse (String.mk ('"' :: s))
      = .ok [.string (String.mk (Lexer.replaceEscapes s))] := by
  have ht : s.takeWhile (fun ch => !decide (ch = '"')) = s := by
    rw [List.takeWhile_eq_self_iff]
    intro a ha
    simp only [Bool.not_eq_true', decide_eq_false_iff_not]
    intro hc
    subst hc
    exact h ha
  have hd : s.dropWhile (fun ch => !decide (ch = '"')) = [] := by
    rw [List.dropWhile_eq_nil_iff]
    intro a ha
    simp only [Bool.not_eq_true', decide_eq_false_iff_not]
    intro hc
    subst hc
    exact h ha
  simp [Lexer.parse, Lexer.lexList, Lexer.lexStep, Lexer.isWhitespaceChar, ht, hd]

/-- Witness for C4's amended statement at the source text `"abc`. -/
theorem unterminated_string_returns_token_witness :
    Lexer.parse (String.mk ('"' :: ['a', 'b', 'c']))
      = .ok [.string (String.mk (Lexer.replaceEscapes ['a', 'b', 'c']))] :=
  unterminated_string_returns_token ['a', 'b', 'c'] (by decide)

/-- C6: an If or While whose predicate evaluates to Boolean(false) or to any
non-Boolean value skips the guarded body without raising a type error: the
If and the While both return the environment unchanged with no side
effect (at every fuel, including zero — the loop body is never entered). -/
theorem nontrue_predicate_skips_body (fuel : Nat) (env : Environment)
    (e : Expr) (body : Statement) (v : Value)
    (hv : eval_expr env e = .ok v)
    (hne : v = .boolean false ∨ ∀ b, v ≠ .boolean b) :
    Runtime.eval fuel env (.sIf e body) = some (.ok (env, []))
    ∧ Runtime.eval fuel env (.sWhile e body) = some (.ok (env, [])) := by
  have hvt : v ≠ .boolean true := by
    rcases hne with h | h
    · subst h
      simp
    · exact h true
  constructor
  · simp [Runtime.eval, hv, hvt]
  · cases fuel <;> simp [Runtime.eval, hv, hvt]

/-- Witness for C6 with predicate `false` and an assignment body, at fuel 0. -/
theorem nontrue_predicate_skips_body_witness :
    Runtime.eval 0 [] (.sIf (.termWrapper (.boolean false))
        (.assignment "x" (.termWrapper (.integer 1)) true)) = some (.ok ([], []))
    ∧ Runtime.eval 0 [] (.sWhile (.termWrapper (.boolean false))
        (.assignment "x" (.termWrapper (.integer 1)) true)) = some (.ok ([], [])) :=
  nontrue_predicate_skips_body 0 [] _ _ (.boolean false) (by simp [eval_expr, eval_term])
    (Or.inl rfl)

/-- C5: indexing a variable holding a String of n characters with an index
expression that evaluates to a Number: an index at or beyond n yields the
out-of-range evaluation error (an ordinary recoverable error, not a panic
and not a default value), and an in-range index yields the one-character
String at that position.  The bound `i < 2^63` is the i64 range invariant of
the Rust Number. -/
theorem string_index_bounds (env : Environment) (x : String) (str : String)
    (ie : Expr) (i : Int)
    (hx : envGet env x = some (.string str))
    (he : eval_expr env ie = .ok (.number i))
    (hhi : i < 2 ^ 63) :
    ((str.data.length : Int) ≤ i →
      eval_term env (.varIndexed x ie)
        = .error (.err "variableIndexed: index out of bounds"))
    ∧ (∀ ch : Char, 0 ≤ i → str.data[i.toNat]? = some ch →
        eval_term env (.varIndexed x ie) = .ok (.string (String.mk [ch]))) := by
  have husize : 0 ≤ i → usizeOfI64 i = i.toNat := by
    intro h0
    unfold usizeOfI64
    omega
  constructor
  · intro hge
    have h0 : 0 ≤ i := le_trans (by positivity) hge
    have hnone : str.data[usizeOfI64 i]? = none := by
      rw [husize h0]
      apply List.getElem?_eq_none
      omega
    simp [eval_term, hx, he, hnone]
  · intro ch h0 hsome
    have hsome' : str.data[usizeOfI64 i]? = some ch := by
      rw [husize h0]
      exact hsome
    simp [eval_term, hx, he, hsome']

/-- Witness for C5: indexing the two-character string "ab" at index 5 is the
out-of-range error. -/
theorem string_index_bounds_witness :
    eval_term [("s", Value.string "ab")]
        (.varIndexed "s" (.termWrapper (.integer 5)))
      = .error (.err "variableIndexed: index out of bounds") :=
  (string_index_bounds [("s", .string "ab")] "s" "ab" (.termWrapper (.integer 5)) 5
    (by simp [envGet]) (by simp [eval_expr, eval_term]) (by norm_num)).1 (by decide)

/-- C2 counterexample: evaluating `while true { }` from the empty environment
exhausts every fuel budget — the Rust loop re-evaluates the always-true
predicate forever — so statement evaluation is not a total function. -/
theorem while_true_diverges :
    evalDiverges [] (.sWhile (.termWrapper (.boolean true)) (.block [])) := by
  intro fuel
  induction fuel with
  | zero => simp [Runtime.eval, eval_expr, eval_term]
  | succ f ih => simp [Runtime.eval, eval_expr, eval_term, Runtime.evalBlock, ih]

theorem eval_whileFree_total_aux (n : Nat) :
    (∀ s : Statement, sizeOf s ≤ n → whileFree s = true →
      ∀ (fuel : Nat) (env : Environment), (Runtime.eval fuel env s).isSome)
    ∧ (∀ ss : List Statement, sizeOf ss ≤ n → whileFreeList ss = true →
      ∀ (fuel : Nat) (env : Environment), (Runtime.evalBlock fuel env ss).isSome) := by
  induction n with
  | zero =>
    constructor
    · intro s hs
      exfalso
      cases s <;> simp at hs
    · intro ss hs
      exfalso
      cases ss <;> simp at hs
  | succ n ih =>
    constructor
    · intro s hs hwf fuel env
      cases s with
      | assignment x e flag =>
        cases ha : evaluate_assignment env x e flag <;> simp [Runtime.eval, ha]
      | print e => simp [Runtime.eval]
      | sIf e body =>
        cases hee : eval_expr env e with
        | error er => simp [Runtime.eval, hee]
        | ok v =>
          by_cases hv : v = .boolean true
          · subst hv
            have hb : sizeOf body ≤ n := by
              simp at hs
              omega
            have hwb : whileFree body = true := by
              simpa [whileFree] using hwf
            simpa [Runtime.eval, hee] using ih.1 body hb hwb fuel env
          · simp [Runtime.eval, hee, hv]
      | sWhile e body => simp [whileFree] at hwf
      | block ss =>
        have hb : sizeOf ss ≤ n := by
          simp at hs
          omega
        have hwb : whileFreeList ss = true := by
          simpa [whileFree] using hwf
        simpa [Runtime.eval] using ih.2 ss hb hwb fuel env
    · intro ss hs hwf fuel env
      cases ss with
      | nil => simp [Runtime.evalBlock]
      | cons s rest =>
        rw [whileFreeList, Bool.and_eq_true] at hwf
        have hs1 : sizeOf s ≤ n := by
          simp at hs
          omega
        have hs2 : sizeOf rest ≤ n := by
          simp at hs
          omega
        cases he1 : Runtime.eval fuel env s with
        | none =>
          exfalso
          have := ih.1 s hs1 hwf.1 fuel env
          rw [he1] at this
          simp at this
        | some r =>
          cases r with
          | error e => simp [Runtime.evalBlock, he1]
          | ok p =>
            cases he2 : Runtime.evalBlock fuel p.1 rest with
            | none =>
              exfalso
              have := ih.2 rest hs2 hwf.2 fuel p.1
              rw [he2] at this
              simp at this
            | some r2 =>
              cases r2 <;> simp [Runtime.evalBlock, he1, he2]

/-- C2 amended: evaluating any While-free statement is total — at every fuel
and every starting environment it yields either a new environment (plus
collected printed output) or an error — but While statements may diverge
(`while true {}` exhausts every fuel, see the counterexample), so statement
evaluation in general is not a total function. -/
theorem eval_total_of_whileFree (s : Statement) (fuel : Nat) (env : Environment)
    (h : whileFree s = true) : (Runtime.eval fuel env s).isSome :=
  (eval_whileFree_total_aux (sizeOf s)).1 s (Nat.le_refl _) h fuel env

/-- Witness for C2's amended statement: a Print statement evaluates totally
at fuel 0. -/
theorem eval_total_of_whileFree_witness :
    (Runtime.eval 0 [] (.print (.termWrapper (.integer 1)))).isSome :=
  eval_total_of_whileFree (.print (.termWrapper (.integer 1))) 0 []
    (by simp [whileFree])

theorem digit_toNat_bounds (c : Char) (h : c.isDigit = true) :
    48 ≤ c.toNat ∧ c.toNat ≤ 57 := by
  simp [Char.isDigit, Char.le_def] at h
  exact h

theorem wrap64_id (x : Int) (h0 : 0 ≤ x) (h1 : x < 2 ^ 63) : wrap64 x = x := by
  unfold wrap64
  have h63 : (2:Int) ^ 63 = 9223372036854775808 := by norm_num
  have h64 : (2:Int) ^ 64 = 18446744073709551616 := by norm_num
  rw [h63, h64] at *
  omega

theorem accumDigits_no_wrap (ds : List Char) : ∀ acc : Nat,
    (∀ c ∈ ds, c.isDigit = true) →
    (acc + 1) * 10 ^ ds.length ≤ 2 ^ 63 →
    Lexer.accumDigits (acc : Int) ds
      = ((ds.foldl (fun a c => 10 * a + Lexer.digitVal c) acc : Nat) : Int) := by
  induction ds with
  | nil =>
    intro acc _ _
    simp [Lexer.accumDigits]
  | cons c cs ih =>
    intro acc hd hb
    have hc := digit_toNat_bounds c (hd c (by simp))
    have hdv : Lexer.digitVal c ≤ 9 := by
      unfold Lexer.digitVal
      omega
    have hstep : 10 * acc + Lexer.digitVal c + 1 ≤ 10 * (acc + 1) := by omega
    have hb' : (10 * acc + Lexer.digitVal c + 1) * 10 ^ cs.length ≤ 2 ^ 63 := by
      calc (10 * acc + Lexer.digitVal c + 1) * 10 ^ cs.length
          ≤ 10 * (acc + 1) * 10 ^ cs.length := Nat.mul_le_mul_right _ hstep
        _ = (acc + 1) * 10 ^ (cs.length + 1) := by ring
        _ ≤ 2 ^ 63 := by simpa [List.length_cons] using hb
    have hpow : 1 ≤ 10 ^ cs.length := Nat.one_le_pow _ _ (by omega)
    have hsmall : 10 * acc + Lexer.digitVal c + 1 ≤ 2 ^ 63 := by
      calc 10 * acc + Lexer.digitVal c + 1
          = (10 * acc + Lexer.digitVal c + 1) * 1 := by ring
        _ ≤ (10 * acc + Lexer.digitVal c + 1) * 10 ^ cs.length :=
            Nat.mul_le_mul_left _ hpow
        _ ≤ 2 ^ 63 := hb'
    have hwrap : wrap64 ((acc : Int) * 10 + (Lexer.digitVal c : Int))
        = ((10 * acc + Lexer.digitVal c : Nat) : Int) := by
      have harg : (acc : Int) * 10 + (Lexer.digitVal c : Int)
          = ((10 * acc + Lexer.digitVal c : Nat) : Int) := by
        push_cast
        ring
      rw [harg]
      apply wrap64_id _ (by positivity)
      have hlt : (10 * acc + Lexer.digitVal c : Nat) < 2 ^ 63 := by omega
      exact_mod_cast hlt
    simp only [Lexer.accumDigits, List.foldl_cons]
    rw [hwrap]
    exact ih (10 * acc + Lexer.digitVal c)
      (fun c' hc' => hd c' (by simp [hc'])) hb'

theorem foldl_digit_ge (cs : List Char) :
    ∀ a : Nat, a ≤ cs.foldl (fun x c => 10 * x + Lexer.digitVal c) a := by
  induction cs with
  | nil => simp
  | cons c cs ih =>
    intro a
    simp only [List.foldl_cons]
    exact le_trans (by omega) (ih (10 * a + Lexer.digitVal c))

theorem digitsNat_pos (c : Char) (cs : List Char) (h : c.isDigit = true)
    (h0 : c ≠ '0') : 1 ≤ Runtime.digitsNat (c :: cs) := by
  have hb := digit_toNat_bounds c h
  have hne48 : c.toNat ≠ 48 := by
    intro he
    apply h0
    rw [← Char.ofNat_toNat c, he]
  unfold Runtime.digitsNat
  simp only [List.foldl_cons]
  refine le_trans ?_ (foldl_digit_ge cs _)
  unfold Lexer.digitVal
  omega

theorem natToDigits_digitsNat (ds : List Char) (hne : ds ≠ [])
    (hd : ∀ c ∈ ds, c.isDigit = true)
    (hcanon : ds.head? = some '0' → ds = ['0']) :
    natToDigits (Runtime.digitsNat ds) = ds := by
  induction ds using List.reverseRecOn with
  | nil => exact absurd rfl hne
  | append_singleton l d ih =>
    rcases l with _ | ⟨c, l'⟩
    · simp only [List.nil_append] at hd ⊢
      have hdd := digit_toNat_bounds d (hd d (by simp))
      have hval : Runtime.digitsNat [d] = Lexer.digitVal d := by
        simp [Runtime.digitsNat]
      have hdv : Lexer.digitVal d ≤ 9 := by
        unfold Lexer.digitVal
        omega
      rw [hval, natToDigits, if_pos (by omega)]
      have : 48 + Lexer.digitVal d = d.toNat := by
        unfold Lexer.digitVal
        omega
      rw [this, Char.ofNat_toNat]
    · have hdl : ∀ x ∈ c :: l', x.isDigit = true := by
        intro x hx
        apply hd
        simp only [List.cons_append, List.mem_cons, List.mem_append] at hx ⊢
        tauto
      have hchead : c ≠ '0' := by
        intro hc
        subst hc
        have : (('0' :: l') ++ [d]) = ['0'] := hcanon (by simp)
        simp at this
      have hcanon' : (c :: l').head? = some '0' → c :: l' = ['0'] := by
        intro hh
        simp at hh
        exact absurd hh hchead
      have hih := ih (by simp) hdl hcanon'
      have hpos : 1 ≤ Runtime.digitsNat (c :: l') := digitsNat_pos c l' (hdl c (by simp)) hchead
      have hdd := digit_toNat_bounds d (hd d (by simp))
      have hdv : Lexer.digitVal d ≤ 9 := by
        unfold Lexer.digitVal
        omega
      have happ : Runtime.digitsNat (c :: l' ++ [d])
          = 10 * Runtime.digitsNat (c :: l') + Lexer.digitVal d := by
        unfold Runtime.digitsNat
        rw [show (c :: l' ++ [d]) = (c :: l') ++ [d] from rfl, List.foldl_append]
        simp
      rw [happ, natToDigits, if_neg (by omega)]
      have hdiv : (10 * Runtime.digitsNat (c :: l') + Lexer.digitVal d) / 10
          = Runtime.digitsNat (c :: l') := by omega
      have hmod : (10 * Runtime.digitsNat (c :: l') + Lexer.digitVal d) % 10
          = Lexer.digitVal d := by omega
      rw [hdiv, hmod, hih]
      have : 48 + Lexer.digitVal d = d.toNat := by
        unfold Lexer.digitVal
        omega
      rw [this, Char.ofNat_toNat]

/-- C9 counterexample: `00` is a valid integer literal (any digit run lexes),
it lexes to `Integer(0)`, and the decimal re-serialization of 0 is `0`, not
the original numeral `00` — so the round trip fails on literals with leading
zeros. -/
theorem leading_zero_roundtrip_fails :
    Lexer.parse "00" = .ok [.integer 0]
    ∧ intToDecimal 0 ≠ "00" := by
  constructor
  · have hw : wrap64 0 = 0 := by
      unfold wrap64
      norm_num
    simp [Lexer.parse, Lexer.lexList, Lexer.lexStep, Lexer.accumDigits,
      Lexer.digitVal, hw]
  · rw [intToDecimal, if_neg (by norm_num), show (0:Int).toNat = 0 from rfl,
      natToDigits]
    decide

/-- C9 amended: for every canonical integer literal of up to 18 decimal
digits — a nonempty all-digit sequence with no leading zero except the
literal `0` itself — tokenizing yields a single Integer token whose value is
the numeral's value and whose decimal re-serialization equals the original
numeral.  (The restriction to canonical numerals is forced by the
counterexample: a literal with a leading zero, e.g. `00`, lexes fine but
re-serializes without the leading zero.) -/
theorem canonical_numeral_roundtrip (ds : List Char) (hne : ds ≠ [])
    (hd : ∀ c ∈ ds, c.isDigit = true) (hlen : ds.length ≤ 18)
    (hcanon : ds.head? = some '0' → ds = ['0']) :
    Lexer.parse (String.mk ds) = .ok [.integer ((Runtime.digitsNat ds : Nat) : Int)]
    ∧ intToDecimal ((Runtime.digitsNat ds : Nat) : Int) = String.mk ds := by
  constructor
  · rcases ds with _ | ⟨c, cs⟩
    · exact absurd rfl hne
    · have hcd : c.isDigit = true := hd c (by simp)
      have ht : cs.takeWhile Char.isDigit = cs := by
        rw [List.takeWhile_eq_self_iff]
        intro a ha
        exact hd a (by simp [ha])
      have hdw : cs.dropWhile Char.isDigit = [] := by
        rw [List.dropWhile_eq_nil_iff]
        intro a ha
        exact hd a (by simp [ha])
      have hbound : (0 + 1) * 10 ^ (c :: cs).length ≤ 2 ^ 63 := by
        have h1 : (10 : Nat) ^ (c :: cs).length ≤ 10 ^ 18 :=
          Nat.pow_le_pow_right (by omega) hlen
        have h2 : (10 : Nat) ^ 18 ≤ 2 ^ 63 := by norm_num
        omega
      have hacc : Lexer.accumDigits ((0 : Nat) : Int) (c :: cs)
          = ((Runtime.digitsNat (c :: cs) : Nat) : Int) :=
        accumDigits_no_wrap (c :: cs) 0 hd hbound
      simp only [Int.natCast_zero] at hacc
      simp [Lexer.parse, Lexer.lexList, Lexer.lexStep, hcd, ht, hdw, hacc]
  · rw [intToDecimal, if_neg (not_lt.mpr (Int.natCast_nonneg _)), Int.toNat_natCast]
    exact congrArg String.mk (natToDigits_digitsNat ds hne hd hcanon)

/-- Witness for C9's amended statement at the numeral `42`. -/
theorem canonical_numeral_roundtrip_witness :
    Lexer.parse (String.mk ['4', '2'])
      = .ok [.integer ((Runtime.digitsNat ['4', '2'] : Nat) : Int)]
    ∧ intToDecimal ((Runtime.digitsNat ['4', '2'] : Nat) : Int)
      = String.mk ['4', '2'] :=
  canonical_numeral_roundtrip ['4', '2'] (by decide) (by decide) (by decide)
    (by decide)

end Claims

end Bina
